import Mathlib

/-!
Verification of the sandboxed command-execution engine of ProdBot
(Season-4 of the secure-code-game repository).

The embedding follows `Season-4/lib/bash.js` (the `PersistentShell`
variant taking `level` and `memoryContext`), together with the
level-switching logic of the main CLI. Commands are lists of
characters; the JavaScript regular expressions used by
`validateCommand` are embedded as terms of a small regex language
with an executable backtracking matcher that mirrors the semantics
of `RegExp.prototype.test` for the constructs those patterns use
(word boundaries, whitespace classes, anchors, alternation,
repetition, the unanchored-search behaviour of `test`).
-/

/-- JavaScript whitespace (the class `\s`, also used by `trim`). -/
def jsIsSpace (c : Char) : Bool :=
  c = ' ' || c = '\t' || c = '\n' || c = '\r' || c = '\x0b' || c = '\x0c' ||
  c = ' ' || c = ' ' || (' ' ≤ c && c ≤ ' ') ||
  c = ' ' || c = ' ' || c = ' ' || c = ' ' ||
  c = '　' || c = '﻿'

/-- `String.prototype.trim`: drop leading and trailing whitespace. -/
def jsTrim (s : List Char) : List Char :=
  ((s.dropWhile jsIsSpace).reverse.dropWhile jsIsSpace).reverse

/-- JavaScript word characters, the class `\w` used by `\b`. -/
def isWordChar (c : Char) : Bool :=
  (('a' ≤ c && c ≤ 'z') || ('A' ≤ c && c ≤ 'Z') ||
   ('0' ≤ c && c ≤ '9') || c = '_')

/-- Word-character test on an optional character (out of bounds is
not a word character). -/
def optIsWord : Option Char → Bool
  | some c => isWordChar c
  | none => false

/-- Regular expressions, covering the constructs appearing in the
patterns of `bash.js`: empty, single-character predicates (literals
and character classes), concatenation, alternation, Kleene star, the
anchors `^` and `$` (no multiline flag) and the word boundary `\b`. -/
inductive RE where
  | eps : RE
  | pred : (Char → Bool) → RE
  | seq : RE → RE → RE
  | alt : RE → RE → RE
  | star : RE → RE
  | bos : RE
  | eos : RE
  | wb : RE

/-- Backtracking matcher. A match state is the previously consumed
character (`none` at the beginning of the string, used by `^` and
`\b`) and the remaining input. `matchRE fuel r prev s` returns every
state reachable by matching `r` at the current position. A star
iteration is only taken when the body consumed input, matching the
JavaScript engine on the patterns at hand (none has a nullable star
body). The fuel bounds recursion depth and is chosen large enough
for every pattern of `bash.js`. -/
def matchRE : Nat → RE → Option Char → List Char → List (Option Char × List Char)
  | 0, _, _, _ => []
  | _ + 1, RE.eps, prev, s => [(prev, s)]
  | _ + 1, RE.pred p, _, s =>
    match s with
    | [] => []
    | c :: rest => if p c then [(some c, rest)] else []
  | fuel + 1, RE.seq r1 r2, prev, s =>
    (matchRE fuel r1 prev s).flatMap fun st => matchRE fuel r2 st.1 st.2
  | fuel + 1, RE.alt r1 r2, prev, s =>
    matchRE fuel r1 prev s ++ matchRE fuel r2 prev s
  | fuel + 1, RE.star r, prev, s =>
    (prev, s) :: ((matchRE fuel r prev s).flatMap fun st =>
      if st.2.length < s.length then matchRE fuel (RE.star r) st.1 st.2 else [])
  | _ + 1, RE.bos, prev, s => if prev.isNone then [(prev, s)] else []
  | _ + 1, RE.eos, prev, s => if s.isEmpty then [(prev, s)] else []
  | _ + 1, RE.wb, prev, s =>
    if optIsWord prev != optIsWord s.head? then [(prev, s)] else []

/-- True when `r` matches at the current position. -/
def matchHere (fuel : Nat) (r : RE) (prev : Option Char) (s : List Char) : Bool :=
  !(matchRE fuel r prev s).isEmpty

/-- Unanchored search: try to match at every position, as
`RegExp.prototype.test` does. -/
def searchAux (fuel : Nat) (r : RE) : Option Char → List Char → Bool
  | prev, [] => matchHere fuel r prev []
  | prev, c :: rest =>
    matchHere fuel r prev (c :: rest) || searchAux fuel r (some c) rest

/-- Fuel bound: generous for every pattern in `bash.js` (recursion
depth is bounded by the pattern size plus a small constant per
consumed character). -/
def reFuel (s : List Char) : Nat := 64 * (s.length + 16)

/-- `pattern.test(s)` for the embedded pattern `r`. -/
def reTest (r : RE) (s : List Char) : Bool :=
  searchAux (reFuel s) r none s

/-- A single literal character. -/
def chrRE (c : Char) : RE := RE.pred (fun x => x = c)

/-- A literal string of characters. -/
def strRE : List Char → RE
  | [] => RE.eps
  | c :: rest => RE.seq (chrRE c) (strRE rest)

/-- Concatenation of a list of regexes. -/
def seqs : List RE → RE
  | [] => RE.eps
  | [r] => r
  | r :: rest => RE.seq r (seqs rest)

/-- The class `\s`. -/
def wsRE : RE := RE.pred jsIsSpace

/-- The class `[^\s]`. -/
def nonWsRE : RE := RE.pred (fun c => !jsIsSpace c)

/-- The wildcard `.` (anything but a line terminator). -/
def dotRE : RE :=
  RE.pred (fun c => !(c = '\n' || c = '\r' || c = ' ' || c = ' '))

/-- `r+`. -/
def plusRE (r : RE) : RE := RE.seq r (RE.star r)

/-- `r?`. -/
def optRE (r : RE) : RE := RE.alt r RE.eps

/-- `\bword\b`. -/
def wordRE (w : String) : RE := seqs [RE.wb, strRE w.data, RE.wb]

/-- `/\bsudo\b/` — privilege escalation. -/
def sudoRE : RE := wordRE "sudo"

/-- `/\brm\s+(-[^\s]*\s+)*\/\s*$/` — rm / (delete root). -/
def rmRootRE : RE :=
  seqs [RE.wb, strRE "rm".data, plusRE wsRE,
    RE.star (seqs [chrRE '-', RE.star nonWsRE, plusRE wsRE]),
    chrRE '/', RE.star wsRE, RE.eos]

/-- `/\brm\s+-[^\s]*r[^\s]*f|rm\s+-[^\s]*f[^\s]*r/` — recursive force
delete (the second alternative has no leading word boundary, exactly
as in the source). -/
def rmRfRE : RE :=
  RE.alt
    (seqs [RE.wb, strRE "rm".data, plusRE wsRE, chrRE '-',
      RE.star nonWsRE, chrRE 'r', RE.star nonWsRE, chrRE 'f'])
    (seqs [strRE "rm".data, plusRE wsRE, chrRE '-',
      RE.star nonWsRE, chrRE 'f', RE.star nonWsRE, chrRE 'r'])

/-- `/\bchmod\b/`. -/
def chmodRE : RE := wordRE "chmod"

/-- `/\bchown\b/`. -/
def chownRE : RE := wordRE "chown"

/-- `/\bmkfs\b/`. -/
def mkfsRE : RE := wordRE "mkfs"

/-- `/\bdd\b/`. -/
def ddRE : RE := wordRE "dd"

/-- `/\bcurl\b.*\|\s*(ba)?sh/` — download piped to a shell. -/
def curlPipeRE : RE :=
  seqs [RE.wb, strRE "curl".data, RE.wb, RE.star dotRE, chrRE '|',
    RE.star wsRE, optRE (strRE "ba".data), strRE "sh".data]

/-- `/\bwget\b.*\|\s*(ba)?sh/`. -/
def wgetPipeRE : RE :=
  seqs [RE.wb, strRE "wget".data, RE.wb, RE.star dotRE, chrRE '|',
    RE.star wsRE, optRE (strRE "ba".data), strRE "sh".data]

/-- `/\bexec\b/` — replacing the shell process. -/
def execRE : RE := wordRE "exec"

/-- `DENIED_PATTERNS` in source order. -/
def DENIED_PATTERNS : List RE :=
  [sudoRE, rmRootRE, rmRfRE, chmodRE, chownRE, mkfsRE, ddRE,
   curlPipeRE, wgetPipeRE, execRE]

/-- `/(?:^|\s)~/` — home directory shortcut. -/
def tildeRE : RE := seqs [RE.alt RE.bos wsRE, chrRE '~']

/-- `/^\s*cd\s*$/` — bare cd. -/
def bareCdRE : RE :=
  seqs [RE.bos, RE.star wsRE, strRE "cd".data, RE.star wsRE, RE.eos]

/-- `/(?:^|\s)\/[^\s]/` — absolute path token. -/
def absPathRE : RE := seqs [RE.alt RE.bos wsRE, chrRE '/', nonWsRE]

/-- `/(?:^|\s|\/)\.\.(\/|$|\s)/` — path traversal segment. -/
def traversalRE : RE :=
  seqs [RE.alt RE.bos (RE.alt wsRE (chrRE '/')),
    chrRE '.', chrRE '.',
    RE.alt (chrRE '/') (RE.alt RE.eos wsRE)]

/-- `/=\s*\.\./` — variable assignment containing dots. -/
def varAssignRE : RE := seqs [chrRE '=', RE.star wsRE, chrRE '.', chrRE '.']

/-- A backtick (character code 96). -/
def backtickRE : RE := RE.pred (fun c => c.toNat = 96)

/-- `/\$\(/` — subshell expansion. -/
def subshellRE : RE := seqs [chrRE '$', chrRE '(']

/-- An octal digit, the class `[0-7]`. -/
def octRE : RE := RE.pred (fun c => '0' ≤ c && c ≤ '7')

/-- `/base64\s+(-d|--decode)/`. -/
def base64RE : RE :=
  seqs [strRE "base64".data, plusRE wsRE,
    RE.alt (strRE "-d".data) (strRE "--decode".data)]

/-- `/printf\s+.*\\x|printf\s+.*\\[0-7]{3}/`. -/
def printfEscRE : RE :=
  RE.alt
    (seqs [strRE "printf".data, plusRE wsRE, RE.star dotRE, chrRE '\\', chrRE 'x'])
    (seqs [strRE "printf".data, plusRE wsRE, RE.star dotRE, chrRE '\\',
      octRE, octRE, octRE])

/-- `/\beval\b/`. -/
def evalRE : RE := wordRE "eval"

/-- The result of `validateCommand`: `\x7b valid, reason? \x7d`. -/
structure ValidationResult where
  valid : Bool
  reason : Option String
deriving Repr, DecidableEq

/-- A system-memory context (Level 4+): the entries of the memory
object; `validateCommand` only ever reads the `scope` entry. -/
abbrev MemoryContext := List (String × String)

/-- `memoryContext.scope` — the value of the `scope` entry, if any. -/
def memScope (m : MemoryContext) : Option String :=
  (m.find? (fun kv => kv.1 == "scope")).map (fun kv => kv.2)

/-- `level >= 4 && memoryContext.scope === "workspace"`. -/
def hasWorkspaceScope (level : Nat) (m : MemoryContext) : Bool :=
  decide (4 ≤ level) && (memScope m == some "workspace")

/-- `validateCommand(cmd, sandboxDir, level = 1, memoryContext = \x7b\x7d)`
from `Season-4/lib/bash.js`: trims the command and applies the checks
in source order, returning the first failure. `sandboxDir` is unused
by the source function but kept in the signature. -/
def validateCommand (cmd : List Char) (sandboxDir : String) (level : Nat)
    (memoryContext : MemoryContext) : ValidationResult :=
  let _ := sandboxDir
  let trimmed := jsTrim cmd
  if trimmed.isEmpty then ⟨false, some "Empty command"⟩
  else if DENIED_PATTERNS.any (fun p => reTest p trimmed) then
    ⟨false, some "Blocked: command matches denied pattern"⟩
  else if reTest tildeRE trimmed then
    ⟨false, some "Home directory references (~) are not allowed"⟩
  else if reTest bareCdRE trimmed then
    ⟨false, some "Bare \x27cd\x27 navigates to home directory and is not allowed"⟩
  else if reTest absPathRE trimmed then
    ⟨false, some "Absolute paths are not allowed"⟩
  else if !hasWorkspaceScope level memoryContext && reTest traversalRE trimmed then
    ⟨false, some "Path traversal (..) is not allowed"⟩
  else if decide (3 ≤ level) && !hasWorkspaceScope level memoryContext then
    if reTest varAssignRE trimmed then
      ⟨false, some "Variable assignments with \x27..\x27 are not allowed"⟩
    else if reTest backtickRE trimmed then
      ⟨false, some "Backtick execution is not allowed"⟩
    else if reTest subshellRE trimmed then
      ⟨false, some "Subshell expansion $() is not allowed"⟩
    else if reTest base64RE trimmed then
      ⟨false, some "Base64 decoding is not allowed"⟩
    else if reTest printfEscRE trimmed then
      ⟨false, some "Printf with escape sequences is not allowed"⟩
    else if reTest evalRE trimmed then
      ⟨false, some "eval is not allowed"⟩
    else ⟨true, none⟩
  else ⟨true, none⟩

/-- One named check: a test on the trimmed command and the reason
reported when it fires. -/
structure CheckSpec where
  test : List Char → Bool
  reason : String

/-- Run a list of checks in order; the first whose test fires wins
and its reason is returned; if none fires the command is valid. -/
def runChecks : List CheckSpec → List Char → ValidationResult
  | [], _ => ⟨true, none⟩
  | ck :: rest, s => if ck.test s then ⟨false, some ck.reason⟩ else runChecks rest s

/-- Check 1: empty command. -/
def emptyCheck : CheckSpec := ⟨fun s => s.isEmpty, "Empty command"⟩

/-- Check 2: the denylist. -/
def deniedCheck : CheckSpec :=
  ⟨fun s => DENIED_PATTERNS.any (fun p => reTest p s),
   "Blocked: command matches denied pattern"⟩

/-- Check 3: home-directory shortcut. -/
def tildeCheck : CheckSpec :=
  ⟨reTest tildeRE, "Home directory references (~) are not allowed"⟩

/-- Check 4: bare cd. -/
def cdCheck : CheckSpec :=
  ⟨reTest bareCdRE, "Bare \x27cd\x27 navigates to home directory and is not allowed"⟩

/-- Check 5: absolute path. -/
def absCheck : CheckSpec :=
  ⟨reTest absPathRE, "Absolute paths are not allowed"⟩

/-- Check 6: path traversal. -/
def travCheck : CheckSpec :=
  ⟨reTest traversalRE, "Path traversal (..) is not allowed"⟩

/-- The six hardened checks of levels 3 and above, in source order. -/
def hardenedChecks : List CheckSpec :=
  [⟨reTest varAssignRE, "Variable assignments with \x27..\x27 are not allowed"⟩,
   ⟨reTest backtickRE, "Backtick execution is not allowed"⟩,
   ⟨reTest subshellRE, "Subshell expansion $() is not allowed"⟩,
   ⟨reTest base64RE, "Base64 decoding is not allowed"⟩,
   ⟨reTest printfEscRE, "Printf with escape sequences is not allowed"⟩,
   ⟨reTest evalRE, "eval is not allowed"⟩]

/-- The always-active checks preceding the path-traversal check. -/
def basicChecks : List CheckSpec :=
  [emptyCheck, deniedCheck, tildeCheck, cdCheck, absCheck]

/-- The check order exactly as claim C4 words it: empty, denylist,
tilde, bare cd, absolute path, path traversal, then at level 3 and
above the hardened checks — with no workspace-scope condition on the
traversal and hardened checks. -/
def claimedChecks (level : Nat) : List CheckSpec :=
  [emptyCheck, deniedCheck, tildeCheck, cdCheck, absCheck, travCheck] ++
    (if 3 ≤ level then hardenedChecks else [])

/-- The check order as the source actually conditions it: the
traversal check is skipped under the workspace-scope override, and
the hardened checks run only at level 3 and above without that
override. -/
def activeChecks (level : Nat) (m : MemoryContext) : List CheckSpec :=
  basicChecks ++
    (if hasWorkspaceScope level m then [] else [travCheck]) ++
    (if decide (3 ≤ level) && !hasWorkspaceScope level m then hardenedChecks else [])

/-- `validateCommand` is the first-failing-check-wins run of the
checks the source actually activates for the given level and memory
context. -/
theorem validateCommand_eq_runChecks (cmd : List Char) (dir : String)
    (level : Nat) (m : MemoryContext) :
    validateCommand cmd dir level m = runChecks (activeChecks level m) (jsTrim cmd) := by
  unfold validateCommand activeChecks
  cases hws : hasWorkspaceScope level m <;>
    cases h3 : decide (3 ≤ level) <;>
      simp only [hws, h3, Bool.not_true, Bool.not_false, Bool.true_and,
        Bool.false_and, Bool.and_true, Bool.and_false, if_true, if_false] <;>
      simp [runChecks, basicChecks, emptyCheck, deniedCheck, tildeCheck,
        cdCheck, absCheck, travCheck, hardenedChecks]

/-- A run over an appended list: the tail runs only when the head
list passes. -/
theorem runChecks_append (l1 l2 : List CheckSpec) (s : List Char) :
    runChecks (l1 ++ l2) s =
      if (runChecks l1 s).valid then runChecks l2 s else runChecks l1 s := by
  induction l1 with
  | nil => simp [runChecks]
  | cons ck rest ih =>
    by_cases h : ck.test s = true <;> simp [runChecks, h, ih]

/-- If no test in the list fires, the run accepts. -/
theorem runChecks_all_pass (l : List CheckSpec) (s : List Char)
    (h : ∀ ck ∈ l, ck.test s = false) : runChecks l s = ⟨true, none⟩ := by
  induction l with
  | nil => rfl
  | cons ck rest ih =>
    have hck := h ck (by simp)
    simp [runChecks, hck]
    exact ih (fun c hc => h c (by simp [hc]))

/-- If every check before `ck` passes and `ck` fires, the run
returns the failure of `ck`. -/
theorem runChecks_first_fail (l1 : List CheckSpec) (ck : CheckSpec)
    (l2 : List CheckSpec) (s : List Char)
    (h1 : ∀ c ∈ l1, c.test s = false) (h : ck.test s = true) :
    runChecks (l1 ++ ck :: l2) s = ⟨false, some ck.reason⟩ := by
  induction l1 with
  | nil => simp [runChecks, h]
  | cons c rest ih =>
    have hc := h1 c (by simp)
    simp [runChecks, hc]
    exact ih (fun d hd => h1 d (by simp [hd]))

/-- If the run accepts, no test in the list fired. -/
theorem runChecks_valid_no_fire (l : List CheckSpec) (s : List Char)
    (h : (runChecks l s).valid = true) : ∀ ck ∈ l, ck.test s = false := by
  induction l with
  | nil => intro ck hck; cases hck
  | cons c rest ih =>
    intro ck hck
    by_cases hc : c.test s = true
    · simp [runChecks, hc] at h
    · rcases List.mem_cons.mp hck with hck | hck
      · subst hck; simpa using hc
      · refine ih ?_ ck hck
        simpa [runChecks, hc] using h

/-- A live bash process handle: its working directory (locked to the
sandbox at spawn) and a process identifier distinguishing spawns. -/
structure ShellProc where
  cwd : String
  pid : Nat
deriving Repr, DecidableEq

/-- The `PersistentShell` object of `bash.js`: the sandbox directory,
the game level, the current memory context (the value the
`getMemoryContext` callback would return), the process handle
(`none` after the process has exited), and the pid counter the next
spawn will use. -/
structure PersistentShell where
  sandboxDir : String
  level : Nat
  memoryContext : MemoryContext
  shell : Option ShellProc
  nextPid : Nat
deriving Repr, DecidableEq

/-- `_spawn()`: start a bash process with cwd locked to the sandbox. -/
def spawnShell (s : PersistentShell) : PersistentShell :=
  { s with shell := some ⟨s.sandboxDir, s.nextPid⟩, nextPid := s.nextPid + 1 }

/-- `new PersistentShell(sandboxDir, level = 1, getMemoryContext =
() => (\x7b\x7d))`: store the arguments and spawn. -/
def mkPersistentShell (sandboxDir : String) (level : Nat := 1)
    (memoryContext : MemoryContext := []) : PersistentShell :=
  spawnShell ⟨sandboxDir, level, memoryContext, none, 0⟩

/-- The `exit` event handler of the spawned process: mark the shell
dead so the next execution respawns. -/
def shellExit (s : PersistentShell) : PersistentShell := { s with shell := none }

/-- `destroy()`: kill the process. -/
def destroyShell (s : PersistentShell) : PersistentShell := { s with shell := none }

/-- The validation `executeCommand` performs on entry. -/
def shellValidation (s : PersistentShell) (cmd : List Char) : ValidationResult :=
  validateCommand cmd s.sandboxDir s.level s.memoryContext

/-- The `\x7b success, output?, error? \x7d` object `executeCommand`
resolves with. -/
structure ExecutionResult where
  success : Bool
  output : Option (List Char)
  error : Option String
deriving Repr, DecidableEq

/-- One chunk arriving on the stdout or stderr stream of the
process. -/
inductive Chunk where
  | out : List Char → Chunk
  | err : List Char → Chunk
deriving Repr, DecidableEq

/-- The stdout stream accumulated over a list of chunks. -/
def stdoutOf (cs : List Chunk) : List Char :=
  cs.flatMap fun c => match c with | Chunk.out s => s | Chunk.err _ => []

/-- The stderr stream accumulated over a list of chunks. -/
def stderrOf (cs : List Chunk) : List Char :=
  cs.flatMap fun c => match c with | Chunk.out _ => [] | Chunk.err s => s

/-- `stdout.includes(marker)`: the pattern occurs as a contiguous
substring. -/
def containsSub (pat : List Char) : List Char → Bool
  | [] => pat.isEmpty
  | c :: rest => pat.isPrefixOf (c :: rest) || containsSub pat rest

/-- `stdout.split(marker)[0]`: everything before the first
occurrence of the marker. -/
def beforeFirst (pat : List Char) : List Char → List Char
  | [] => []
  | c :: rest =>
    if pat.isPrefixOf (c :: rest) then [] else c :: beforeFirst pat rest

/-- The resolution value the `onStdout` handler builds once the
marker has appeared: everything before the marker, with the
accumulated stderr appended when its trim is non-empty. -/
def resolveValue (marker so se : List Char) : ExecutionResult :=
  if !(jsTrim se).isEmpty then ⟨true, some (beforeFirst marker so ++ se), none⟩
  else ⟨true, some (beforeFirst marker so), none⟩

/-- The marker wait loop of `executeCommand`: consume stream chunks,
accumulating stdout and stderr; after each stdout chunk, if the
marker now occurs in the accumulated stdout, resolve. `none` means
the promise has not resolved on this event list. `so`/`se` are the
accumulators. -/
def runMarkerLoop (marker : List Char) : List Chunk → List Char → List Char →
    Option ExecutionResult
  | [], _, _ => none
  | Chunk.err e :: rest, so, se => runMarkerLoop marker rest so (se ++ e)
  | Chunk.out o :: rest, so, se =>
    if containsSub marker (so ++ o) then some (resolveValue marker (so ++ o) se)
    else runMarkerLoop marker rest (so ++ o) se

/-- What `executeCommand` does after validation succeeds: the text
written to stdin, and the awaiting of the marker loop on whatever
the process streams back. -/
inductive ExecStep where
  | rejected : ExecutionResult → ExecStep
  | launched : List Char → (List Chunk → Option ExecutionResult) → ExecStep

/-- `executeCommand(cmd)`: validate; on rejection resolve immediately
with the validation reason; otherwise respawn the shell if it died,
write `cmd\necho marker\n` to stdin and wait for the marker. The
marker (timestamp plus random integer in the source) is a
parameter. -/
def executeCommand (s : PersistentShell) (cmd : List Char) (marker : List Char) :
    PersistentShell × ExecStep :=
  let validation := shellValidation s cmd
  if !validation.valid then
    (s, ExecStep.rejected ⟨false, none, validation.reason⟩)
  else
    let s2 := if s.shell.isNone then spawnShell s else s
    (s2, ExecStep.launched (cmd ++ '\n' :: "echo ".data ++ marker ++ ['\n'])
      (fun chunks => runMarkerLoop marker chunks [] []))

/-- The level table of the main CLI (`LEVELS`): flag, directory and
optional web and mcp directories per level. -/
structure LevelConfig where
  flag : String
  dir : String
  webDir : Option String
  mcpDir : Option String
deriving Repr, DecidableEq

/-- `LEVELS` — levels 1 to 3 exist; `none` models `!LEVELS[level]`. -/
def LEVELS : Nat → Option LevelConfig
  | 1 => some ⟨"BYPA55ED", "Level-1", none, none⟩
  | 2 => some ⟨"INDIR3CT", "Level-2", some "web", none⟩
  | 3 => some ⟨"EXCE55IV", "Level-3", some "../Level-2/web", some "mcp"⟩
  | _ => none

/-- `sandboxDir(level)`: `path.join(SEASON_DIR, LEVELS[level].dir,
"prodbot-activities")`. -/
def sandboxDirOf (seasonDir : String) (cfg : LevelConfig) : String :=
  seasonDir ++ "/" ++ cfg.dir ++ "/prodbot-activities"

/-- The module-level mutable state of the CLI that `switchToLevel`
touches: the current level, the sandbox path and the shell. -/
structure ProgState where
  currentLevel : Nat
  sandboxDir : String
  shell : PersistentShell
deriving Repr, DecidableEq

/-- What a call to `switchToLevel` reported, including, on a switch,
the destroyed old shell and the freshly created one. -/
inductive SwitchOutcome where
  | unknownLevel : Nat → SwitchOutcome
  | alreadyActive : Nat → SwitchOutcome
  | switched : PersistentShell → PersistentShell → SwitchOutcome

/-- `switchToLevel(level)`: reject unknown levels, report an active
level as a no-op, otherwise update level and sandbox path, destroy
the shell and spawn a new one in the new sandbox. -/
def switchToLevel (seasonDir : String) (st : ProgState) (level : Nat) :
    ProgState × SwitchOutcome :=
  match LEVELS level with
  | none => (st, SwitchOutcome.unknownLevel level)
  | some cfg =>
    if level = st.currentLevel then (st, SwitchOutcome.alreadyActive level)
    else
      let newSandbox := sandboxDirOf seasonDir cfg
      let newShell := mkPersistentShell newSandbox
      (⟨level, newSandbox, newShell⟩,
       SwitchOutcome.switched (destroyShell st.shell) newShell)

/-- The shells the program actually constructs: every `new
PersistentShell(SANDBOX_DIR)` call site passes only the sandbox
directory, so level and memory context take their defaults. -/
def programShell (sandboxDir : String) : PersistentShell :=
  mkPersistentShell sandboxDir

/-- The checks in force at level 1 with an empty memory context:
the base checks with the traversal check unconditional and no
hardened checks. -/
def level1Checks : List CheckSpec :=
  [emptyCheck, deniedCheck, tildeCheck, cdCheck, absCheck, travCheck]

/-- The absolute-path pattern does not match the empty string. -/
theorem absPath_nil : reTest absPathRE [] = false := by decide

/-- The traversal pattern does not match the empty string. -/
theorem traversal_nil : reTest traversalRE [] = false := by decide

/-- A string matched by a pattern that rejects the empty string is
non-empty. -/
theorem isEmpty_false_of_test (s : List Char) (r : RE)
    (hnil : reTest r [] = false) (h : reTest r s = true) : s.isEmpty = false := by
  cases s with
  | nil => rw [hnil] at h; cases h
  | cons a l => rfl

/-- Any command whose denylist test fires is rejected with the
denylist reason, at every level and in every memory context. -/
theorem denied_rejects (cmd : List Char) (dir : String) (level : Nat)
    (m : MemoryContext)
    (hne : (jsTrim cmd).isEmpty = false)
    (hden : DENIED_PATTERNS.any (fun p => reTest p (jsTrim cmd)) = true) :
    validateCommand cmd dir level m =
      ⟨false, some "Blocked: command matches denied pattern"⟩ := by
  rw [validateCommand_eq_runChecks]
  have hshape : activeChecks level m =
      [emptyCheck] ++ deniedCheck ::
        ([tildeCheck, cdCheck, absCheck] ++
          ((if hasWorkspaceScope level m then [] else [travCheck]) ++
           (if decide (3 ≤ level) && !hasWorkspaceScope level m then
             hardenedChecks else []))) := rfl
  rw [hshape]
  exact runChecks_first_fail [emptyCheck] deniedCheck _ _
    (by intro c hc; fin_cases hc; exact hne) hden

/-- Claim C1, as stated, is false: `sudo cat /etc/passwd` contains an
absolute path token, yet `validateCommand` reports the denylist
reason, not the absolute-path reason, because the denylist check runs
first. -/
theorem C1_counterexample :
    reTest absPathRE (jsTrim "sudo cat /etc/passwd".data) = true ∧
    validateCommand "sudo cat /etc/passwd".data "/sandbox" 1 [] ≠
      ⟨false, some "Absolute paths are not allowed"⟩ := by decide

/-- Claim C1 amended: for every command containing an absolute path
token, `validateCommand` returns invalid at every policy level and
in every memory context; the reason is the absolute-path string
provided none of the earlier checks (denylist, tilde, bare cd)
fires. -/
theorem C1_corrected (cmd : List Char) (dir : String) (level : Nat)
    (m : MemoryContext)
    (habs : reTest absPathRE (jsTrim cmd) = true) :
    (validateCommand cmd dir level m).valid = false ∧
    (DENIED_PATTERNS.any (fun p => reTest p (jsTrim cmd)) = false →
      reTest tildeRE (jsTrim cmd) = false →
      reTest bareCdRE (jsTrim cmd) = false →
      validateCommand cmd dir level m =
        ⟨false, some "Absolute paths are not allowed"⟩) := by
  have hne : (jsTrim cmd).isEmpty = false :=
    isEmpty_false_of_test _ _ absPath_nil habs
  constructor
  · cases hvv : (validateCommand cmd dir level m).valid
    · rfl
    · exfalso
      rw [validateCommand_eq_runChecks] at hvv
      have h := runChecks_valid_no_fire _ _ hvv absCheck
        (by simp [activeChecks, basicChecks])
      simp only [absCheck] at h
      rw [habs] at h
      cases h
  · intro hden htil hcd
    rw [validateCommand_eq_runChecks]
    have hshape : activeChecks level m =
        [emptyCheck, deniedCheck, tildeCheck, cdCheck] ++ absCheck ::
          ((if hasWorkspaceScope level m then [] else [travCheck]) ++
           (if decide (3 ≤ level) && !hasWorkspaceScope level m then
             hardenedChecks else [])) := rfl
    rw [hshape]
    refine runChecks_first_fail _ _ _ _ ?_ habs
    intro c hc
    fin_cases hc
    · exact hne
    · exact hden
    · exact htil
    · exact hcd

theorem C1_witness :
    (validateCommand "cat /etc/passwd".data "/sandbox" 2 []).valid = false ∧
    validateCommand "cat /etc/passwd".data "/sandbox" 2 [] =
      ⟨false, some "Absolute paths are not allowed"⟩ := by
  have h := C1_corrected "cat /etc/passwd".data "/sandbox" 2 [] (by decide)
  exact ⟨h.1, h.2 (by decide) (by decide) (by decide)⟩

/-- Claim C2, as stated, is false at two inputs: with
`scope = "workspace"` but level 1 the override is inert (the code
additionally requires level >= 4), so `cat ../file` is still
rejected where the claim promises acceptance; and for
`sudo cat ../file` the denylist fires first, so the reason is not
the path-traversal reason. -/
theorem C2_counterexample :
    (reTest traversalRE (jsTrim "cat ../file".data) = true ∧
      validateCommand "cat ../file".data "/sandbox" 1 [("scope", "workspace")] =
        ⟨false, some "Path traversal (..) is not allowed"⟩) ∧
    (reTest traversalRE (jsTrim "sudo cat ../file".data) = true ∧
      validateCommand "sudo cat ../file".data "/sandbox" 1 [] =
        ⟨false, some "Blocked: command matches denied pattern"⟩) := by decide

/-- Claim C2 amended: for every command containing `..` as a path
segment on which no earlier check (denylist, tilde, bare cd,
absolute path) fires, `validateCommand` rejects with the
path-traversal reason unless the workspace-scope override is active
— which requires BOTH level >= 4 AND `memoryContext.scope ==
"workspace"` — in which case it accepts. -/
theorem C2_corrected (cmd : List Char) (dir : String) (level : Nat)
    (m : MemoryContext)
    (htrav : reTest traversalRE (jsTrim cmd) = true)
    (hden : DENIED_PATTERNS.any (fun p => reTest p (jsTrim cmd)) = false)
    (htil : reTest tildeRE (jsTrim cmd) = false)
    (hcd : reTest bareCdRE (jsTrim cmd) = false)
    (habs : reTest absPathRE (jsTrim cmd) = false) :
    validateCommand cmd dir level m =
      if hasWorkspaceScope level m then ⟨true, none⟩
      else ⟨false, some "Path traversal (..) is not allowed"⟩ := by
  have hne : (jsTrim cmd).isEmpty = false :=
    isEmpty_false_of_test _ _ traversal_nil htrav
  rw [validateCommand_eq_runChecks]
  cases hws : hasWorkspaceScope level m
  · have hshape : activeChecks level m =
        basicChecks ++ travCheck ::
          (if decide (3 ≤ level) && !hasWorkspaceScope level m then
            hardenedChecks else []) := by
      simp [activeChecks, hws]
    rw [hshape]
    simp only [Bool.false_eq_true, if_false]
    refine runChecks_first_fail _ _ _ _ ?_ htrav
    intro c hc
    fin_cases hc
    · exact hne
    · exact hden
    · exact htil
    · exact hcd
    · exact habs
  · have hshape : activeChecks level m = basicChecks := by
      simp [activeChecks, hws]
    rw [hshape]
    simp only [if_true]
    refine runChecks_all_pass _ _ ?_
    intro c hc
    fin_cases hc
    · exact hne
    · exact hden
    · exact htil
    · exact hcd
    · exact habs

theorem C2_witness :
    validateCommand "cat ../a".data "/sandbox" 1 [] =
      ⟨false, some "Path traversal (..) is not allowed"⟩ ∧
    validateCommand "cat ../a".data "/sandbox" 4 [("scope", "workspace")] =
      ⟨true, none⟩ := by
  have h1 := C2_corrected "cat ../a".data "/sandbox" 1 []
    (by decide) (by decide) (by decide) (by decide) (by decide)
  have h2 := C2_corrected "cat ../a".data "/sandbox" 4 [("scope", "workspace")]
    (by decide) (by decide) (by decide) (by decide) (by decide)
  refine ⟨?_, ?_⟩
  · rw [h1]; decide
  · rw [h2]; decide

/-- Claim C3, as stated, is false: `echo $(ls)` contains no
traversal token, yet at level 4 the workspace-scope override changes
the outcome — the hardened subshell check is skipped under the
override, because the source guards the whole hardened block by
`level >= 3 && !hasWorkspaceScope`. -/
theorem C3_counterexample :
    reTest traversalRE (jsTrim "echo $(ls)".data) = false ∧
    validateCommand "echo $(ls)".data "/sandbox" 4 [("scope", "workspace")] ≠
      validateCommand "echo $(ls)".data "/sandbox" 4 [] := by decide

/-- Claim C3 amended: the workspace-scope override relaxes the
path-traversal check AND the level >= 3 hardened checks (not only
the former); on any command on which neither the traversal pattern
nor any hardened pattern fires, the result is the same in every
memory context — the empty, denylist, tilde, bare-cd and
absolute-path checks are unaffected by the override. -/
theorem C3_corrected (cmd : List Char) (dir : String) (level : Nat)
    (m1 m2 : MemoryContext)
    (htrav : reTest traversalRE (jsTrim cmd) = false)
    (hhard : hardenedChecks.any (fun ck => ck.test (jsTrim cmd)) = false) :
    validateCommand cmd dir level m1 = validateCommand cmd dir level m2 := by
  have key : ∀ m : MemoryContext, validateCommand cmd dir level m =
      if (runChecks basicChecks (jsTrim cmd)).valid then ⟨true, none⟩
      else runChecks basicChecks (jsTrim cmd) := by
    intro m
    rw [validateCommand_eq_runChecks]
    have hshape : activeChecks level m =
        basicChecks ++
          ((if hasWorkspaceScope level m then [] else [travCheck]) ++
           (if decide (3 ≤ level) && !hasWorkspaceScope level m then
             hardenedChecks else [])) := by
      simp [activeChecks, List.append_assoc]
    rw [hshape, runChecks_append]
    have hrest : runChecks
        ((if hasWorkspaceScope level m then [] else [travCheck]) ++
         (if decide (3 ≤ level) && !hasWorkspaceScope level m then
           hardenedChecks else [])) (jsTrim cmd) = ⟨true, none⟩ := by
      refine runChecks_all_pass _ _ ?_
      intro ck hck
      rcases List.mem_append.mp hck with hin | hin
      · cases hws : hasWorkspaceScope level m
        · rw [hws] at hin
          simp only [Bool.false_eq_true, if_false, List.mem_singleton] at hin
          rw [hin]; exact htrav
        · rw [hws] at hin
          simp at hin
      · cases h3 : (decide (3 ≤ level) && !hasWorkspaceScope level m)
        · rw [h3] at hin
          simp at hin
        · rw [h3] at hin
          simp only [if_true] at hin
          have := List.any_eq_false.mp hhard ck hin
          simpa using this
    rw [hrest]
  rw [key m1, key m2]

theorem C3_witness :
    validateCommand "echo hello".data "/sandbox" 4 [("scope", "workspace")] =
      validateCommand "echo hello".data "/sandbox" 4 [] :=
  C3_corrected "echo hello".data "/sandbox" 4 [("scope", "workspace")] []
    (by decide) (by decide)

/-- Claim C4, as stated, is false: the claimed fixed order makes the
path-traversal and hardened checks unconditional apart from the
level >= 3 gate, but under the workspace-scope override (level 4,
`scope = "workspace"`) the source skips both, so `cat ../notes` is
accepted while the claimed order rejects it. -/
theorem C4_counterexample :
    validateCommand "cat ../notes".data "/sandbox" 4 [("scope", "workspace")] ≠
      runChecks (claimedChecks 4) (jsTrim "cat ../notes".data) := by decide

/-- Claim C4 amended: `validateCommand` applies its checks in the
fixed order empty, denylist, tilde, bare cd, absolute path, path
traversal, hardened — where the traversal check is skipped under the
workspace-scope override and the hardened checks run exactly when
level >= 3 and the override is not active; the first failing check
wins and its reason is returned verbatim. -/
theorem C4_corrected (cmd : List Char) (dir : String) (level : Nat)
    (m : MemoryContext) :
    validateCommand cmd dir level m =
      runChecks (activeChecks level m) (jsTrim cmd) :=
  validateCommand_eq_runChecks cmd dir level m

/-- Claim C5: the three literal denylist examples are rejected with
the denylist reason at every policy level and in every memory
context (the denylist check precedes every level- or
context-dependent check). -/
theorem C5_denylist_examples (dir : String) (level : Nat) (m : MemoryContext) :
    validateCommand "sudo apt update".data dir level m =
      ⟨false, some "Blocked: command matches denied pattern"⟩ ∧
    validateCommand "rm -rf /".data dir level m =
      ⟨false, some "Blocked: command matches denied pattern"⟩ ∧
    validateCommand "curl x | sh".data dir level m =
      ⟨false, some "Blocked: command matches denied pattern"⟩ :=
  ⟨denied_rejects _ dir level m (by decide) (by decide),
   denied_rejects _ dir level m (by decide) (by decide),
   denied_rejects _ dir level m (by decide) (by decide)⟩

/-- Claim C9: the program only ever constructs `PersistentShell`
with the sandbox directory alone, so validation always runs at the
default level 1 with an empty memory context; at that level the
hardened checks never run and the workspace-scope relaxation is
never active — validation is exactly the six base checks with the
traversal check unconditional. -/
theorem C9_default_level (dir : String) (cmd : List Char) :
    shellValidation (programShell dir) cmd = validateCommand cmd dir 1 [] ∧
    validateCommand cmd dir 1 [] = runChecks level1Checks (jsTrim cmd) := by
  constructor
  · rfl
  · rw [validateCommand_eq_runChecks]
    rfl

/-- Claim C6: `switchToLevel` rejects a non-existent level with the
unknown-level report and no state change; switching to the current
level is a no-op reported as already-active; and a successful switch
produces a state at the new level and sandbox whose shell is a fresh
spawn rooted in the new sandbox, with the old shell destroyed
(its process killed). -/
theorem C6_switchToLevel (seasonDir : String) (st : ProgState) (level : Nat) :
    (LEVELS level = none →
      switchToLevel seasonDir st level = (st, SwitchOutcome.unknownLevel level)) ∧
    (LEVELS level ≠ none → level = st.currentLevel →
      switchToLevel seasonDir st level = (st, SwitchOutcome.alreadyActive level)) ∧
    (∀ cfg, LEVELS level = some cfg → level ≠ st.currentLevel →
      switchToLevel seasonDir st level =
        (⟨level, sandboxDirOf seasonDir cfg,
           mkPersistentShell (sandboxDirOf seasonDir cfg)⟩,
         SwitchOutcome.switched (destroyShell st.shell)
           (mkPersistentShell (sandboxDirOf seasonDir cfg))) ∧
      (destroyShell st.shell).shell = none ∧
      (mkPersistentShell (sandboxDirOf seasonDir cfg)).shell =
        some ⟨sandboxDirOf seasonDir cfg, 0⟩) := by
  refine ⟨?_, ?_, ?_⟩
  · intro h
    unfold switchToLevel
    rw [h]
  · intro h hcur
    subst hcur
    cases hL : LEVELS st.currentLevel with
    | none => exact absurd hL h
    | some cfg => simp [switchToLevel, hL]
  · intro cfg hL hne
    refine ⟨?_, rfl, rfl⟩
    simp [switchToLevel, hL, hne]

theorem C6_witness :
    switchToLevel "/s" ⟨1, "d", mkPersistentShell "d"⟩ 7 =
      (⟨1, "d", mkPersistentShell "d"⟩, SwitchOutcome.unknownLevel 7) ∧
    switchToLevel "/s" ⟨1, "d", mkPersistentShell "d"⟩ 1 =
      (⟨1, "d", mkPersistentShell "d"⟩, SwitchOutcome.alreadyActive 1) ∧
    switchToLevel "/s" ⟨1, "d", mkPersistentShell "d"⟩ 2 =
      (⟨2, sandboxDirOf "/s" ⟨"INDIR3CT", "Level-2", some "web", none⟩,
         mkPersistentShell (sandboxDirOf "/s" ⟨"INDIR3CT", "Level-2", some "web", none⟩)⟩,
       SwitchOutcome.switched (destroyShell (mkPersistentShell "d"))
         (mkPersistentShell (sandboxDirOf "/s" ⟨"INDIR3CT", "Level-2", some "web", none⟩))) :=
  ⟨(C6_switchToLevel "/s" ⟨1, "d", mkPersistentShell "d"⟩ 7).1 rfl,
   (C6_switchToLevel "/s" ⟨1, "d", mkPersistentShell "d"⟩ 1).2.1 (by decide) rfl,
   ((C6_switchToLevel "/s" ⟨1, "d", mkPersistentShell "d"⟩ 2).2.2
     ⟨"INDIR3CT", "Level-2", some "web", none⟩ rfl (by decide)).1⟩

/-- Claim C7: when the underlying process has died (`shell = none`),
`executeCommand` on a command that passes validation transparently
respawns — the post-state holds a live process rooted in the sandbox
— and proceeds to launch the command; the caller gets no
dead-process rejection. -/
theorem C7_respawn (s : PersistentShell) (cmd marker : List Char)
    (hdead : s.shell = none)
    (hval : (shellValidation s cmd).valid = true) :
    (executeCommand s cmd marker).1.shell = some ⟨s.sandboxDir, s.nextPid⟩ ∧
    ∃ stdin await,
      (executeCommand s cmd marker).2 = ExecStep.launched stdin await := by
  have h2 : s.shell.isNone = true := by rw [hdead]; rfl
  have hexec : executeCommand s cmd marker =
      (spawnShell s,
       ExecStep.launched (cmd ++ '\n' :: "echo ".data ++ marker ++ ['\n'])
         (fun chunks => runMarkerLoop marker chunks [] [])) := by
    simp [executeCommand, hval, h2]
  rw [hexec]
  exact ⟨rfl, _, _, rfl⟩

theorem C7_witness :
    (executeCommand (shellExit (mkPersistentShell "/sb")) "echo hi".data
      "__M__".data).1.shell = some ⟨"/sb", 1⟩ ∧
    ∃ stdin await,
      (executeCommand (shellExit (mkPersistentShell "/sb")) "echo hi".data
        "__M__".data).2 = ExecStep.launched stdin await :=
  C7_respawn (shellExit (mkPersistentShell "/sb")) "echo hi".data "__M__".data
    rfl (by decide)

/-- `stdoutOf` of no chunks. -/
theorem stdoutOf_nil : stdoutOf [] = [] := rfl

/-- `stderrOf` of no chunks. -/
theorem stderrOf_nil : stderrOf [] = [] := rfl

/-- `stdoutOf` over a leading stderr chunk. -/
theorem stdoutOf_cons_err (e : List Char) (l : List Chunk) :
    stdoutOf (Chunk.err e :: l) = stdoutOf l := rfl

/-- `stdoutOf` over a leading stdout chunk. -/
theorem stdoutOf_cons_out (o : List Char) (l : List Chunk) :
    stdoutOf (Chunk.out o :: l) = o ++ stdoutOf l := rfl

/-- `stderrOf` over a leading stderr chunk. -/
theorem stderrOf_cons_err (e : List Char) (l : List Chunk) :
    stderrOf (Chunk.err e :: l) = e ++ stderrOf l := rfl

/-- `stderrOf` over a leading stdout chunk. -/
theorem stderrOf_cons_out (o : List Char) (l : List Chunk) :
    stderrOf (Chunk.out o :: l) = stderrOf l := rfl

/-- Characterization of a resolution of the marker-wait loop: if the
loop resolves on an event list, there is a minimal consumed prefix
of the events after which the marker occurs in the accumulated
stdout, and the resolved value is built from exactly that prefix by
`resolveValue`. -/
theorem runMarkerLoop_resolves (marker : List Char) (chunks : List Chunk) :
    ∀ (so se : List Char) (r : ExecutionResult),
      containsSub marker so = false →
      runMarkerLoop marker chunks so se = some r →
      ∃ k, 1 ≤ k ∧ k ≤ chunks.length ∧
        containsSub marker (so ++ stdoutOf (chunks.take k)) = true ∧
        (∀ j, j < k → containsSub marker (so ++ stdoutOf (chunks.take j)) = false) ∧
        r = resolveValue marker (so ++ stdoutOf (chunks.take k))
              (se ++ stderrOf (chunks.take k)) := by
  induction chunks with
  | nil =>
    intro so se r hso h
    simp [runMarkerLoop] at h
  | cons c rest ih =>
    intro so se r hso h
    cases c with
    | err e =>
      have h' : runMarkerLoop marker rest so (se ++ e) = some r := by
        simpa [runMarkerLoop] using h
      obtain ⟨k, hk1, hkle, hcont, hmin, hr⟩ := ih so (se ++ e) r hso h'
      refine ⟨k + 1, by omega, by simpa using Nat.succ_le_succ hkle, ?_, ?_, ?_⟩
      · rw [List.take_succ_cons, stdoutOf_cons_err]
        exact hcont
      · intro j hj
        cases j with
        | zero => simpa [stdoutOf_nil] using hso
        | succ j' =>
          rw [List.take_succ_cons, stdoutOf_cons_err]
          exact hmin j' (by omega)
      · rw [List.take_succ_cons, stdoutOf_cons_err, stderrOf_cons_err, hr,
          ← List.append_assoc]
    | out o =>
      cases hc : containsSub marker (so ++ o)
      · have h' : runMarkerLoop marker rest (so ++ o) se = some r := by
          simpa [runMarkerLoop, hc] using h
        obtain ⟨k, hk1, hkle, hcont, hmin, hr⟩ := ih (so ++ o) se r hc h'
        refine ⟨k + 1, by omega, by simpa using Nat.succ_le_succ hkle, ?_, ?_, ?_⟩
        · rw [List.take_succ_cons, stdoutOf_cons_out, ← List.append_assoc]
          exact hcont
        · intro j hj
          cases j with
          | zero => simpa [stdoutOf_nil] using hso
          | succ j' =>
            rw [List.take_succ_cons, stdoutOf_cons_out, ← List.append_assoc]
            exact hmin j' (by omega)
        · rw [List.take_succ_cons, stdoutOf_cons_out, stderrOf_cons_out, hr,
            ← List.append_assoc]
      · have h' : resolveValue marker (so ++ o) se = r := by
          have := h
          simp [runMarkerLoop, hc] at this
          exact this
        refine ⟨1, le_refl 1, by simp, ?_, ?_, ?_⟩
        · simpa [stdoutOf] using hc
        · intro j hj
          have hj0 : j = 0 := by omega
          subst hj0
          simpa [stdoutOf_nil] using hso
        · rw [← h']
          simp [stdoutOf, stderrOf]

/-- A non-empty marker does not occur in an empty accumulator. -/
theorem containsSub_nil_of_ne (marker : List Char) (hm : marker ≠ []) :
    containsSub marker [] = false := by
  cases marker with
  | nil => exact absurd rfl hm
  | cons c rest => rfl

/-- Claim C8: for every command that passes validation,
`executeCommand` writes `cmd`, a newline, `echo ` and the marker to
the process input and awaits the marker loop; and whenever that loop
resolves, it does so at the first event prefix whose accumulated
stdout contains the marker, with output everything accumulated
before the marker and the accumulated stderr appended exactly when
its trim is non-empty (the content of `resolveValue`). -/
theorem C8_marker_protocol (s : PersistentShell) (cmd marker : List Char)
    (chunks : List Chunk) (r : ExecutionResult)
    (hval : (shellValidation s cmd).valid = true)
    (hm : marker ≠ [])
    (hrun : runMarkerLoop marker chunks [] [] = some r) :
    (∃ s2, executeCommand s cmd marker =
      (s2, ExecStep.launched (cmd ++ '\n' :: "echo ".data ++ marker ++ ['\n'])
        (fun cs => runMarkerLoop marker cs [] []))) ∧
    ∃ k, 1 ≤ k ∧ k ≤ chunks.length ∧
      containsSub marker (stdoutOf (chunks.take k)) = true ∧
      (∀ j, j < k → containsSub marker (stdoutOf (chunks.take j)) = false) ∧
      r = resolveValue marker (stdoutOf (chunks.take k))
            (stderrOf (chunks.take k)) := by
  constructor
  · refine ⟨if s.shell.isNone then spawnShell s else s, ?_⟩
    simp [executeCommand, hval]
  · obtain ⟨k, hk1, hkle, hcont, hmin, hr⟩ :=
      runMarkerLoop_resolves marker chunks [] [] r
        (containsSub_nil_of_ne marker hm) hrun
    refine ⟨k, hk1, hkle, by simpa using hcont, ?_, by simpa using hr⟩
    intro j hj
    simpa using hmin j hj

theorem C8_witness :
    runMarkerLoop "__M__".data
      [Chunk.err "warn".data, Chunk.out "hi\n__M__\n".data] [] [] =
      some ⟨true, some "hi\nwarn".data, none⟩ ∧
    ∃ k, 1 ≤ k ∧ k ≤ 2 ∧
      (⟨true, some "hi\nwarn".data, none⟩ : ExecutionResult) =
        resolveValue "__M__".data
          (stdoutOf ([Chunk.err "warn".data, Chunk.out "hi\n__M__\n".data].take k))
          (stderrOf ([Chunk.err "warn".data, Chunk.out "hi\n__M__\n".data].take k)) := by
  have h := C8_marker_protocol (mkPersistentShell "/sb") "echo hi".data
    "__M__".data [Chunk.err "warn".data, Chunk.out "hi\n__M__\n".data]
    ⟨true, some "hi\nwarn".data, none⟩ (by decide) (by decide) (by decide)
  obtain ⟨k, hk1, hkle, hcont, hmin, hr⟩ := h.2
  exact ⟨by decide, k, hk1, hkle, hr⟩

/-- Every resolution of the marker loop reports success with no
error field, whatever the streams carried. -/
theorem runMarkerLoop_success (marker : List Char) (chunks : List Chunk) :
    ∀ (so se : List Char) (r : ExecutionResult),
      runMarkerLoop marker chunks so se = some r →
      r.success = true ∧ r.error = none := by
  induction chunks with
  | nil =>
    intro so se r h
    simp [runMarkerLoop] at h
  | cons c rest ih =>
    intro so se r h
    cases c with
    | err e => exact ih so (se ++ e) r (by simpa [runMarkerLoop] using h)
    | out o =>
      cases hc : containsSub marker (so ++ o)
      · exact ih (so ++ o) se r (by simpa [runMarkerLoop, hc] using h)
      · have h' : resolveValue marker (so ++ o) se = r := by
          have hx := h
          simp [runMarkerLoop, hc] at hx
          exact hx
        rw [← h']
        unfold resolveValue
        split
        · exact ⟨rfl, rfl⟩
        · exact ⟨rfl, rfl⟩

/-- Claim C10: when validation passes, any resolution of the awaited
marker loop has `success = true` and no `error` field (even if the
command only wrote to stderr); a rejected result, carrying
`success = false` and the validation reason as `error`, arises
exactly from a failed validation. -/
theorem C10_success_shape (s : PersistentShell) (cmd marker : List Char) :
    (∀ stdin await chunks r,
      (executeCommand s cmd marker).2 = ExecStep.launched stdin await →
      await chunks = some r →
      r.success = true ∧ r.error = none) ∧
    (∀ rej, (executeCommand s cmd marker).2 = ExecStep.rejected rej →
      rej = ⟨false, none, (shellValidation s cmd).reason⟩ ∧
      (shellValidation s cmd).valid = false) := by
  cases hval : (shellValidation s cmd).valid
  · constructor
    · intro stdin await chunks r hL hrun
      simp [executeCommand, hval] at hL
    · intro rej hR
      simp [executeCommand, hval] at hR
      exact ⟨hR.symm, rfl⟩
  · constructor
    · intro stdin await chunks r hL hrun
      have hA : await = fun cs => runMarkerLoop marker cs [] [] := by
        have hx := hL
        simp [executeCommand, hval] at hx
        exact hx.2.symm
      rw [hA] at hrun
      exact runMarkerLoop_success marker chunks [] [] r hrun
    · intro rej hR
      simp [executeCommand, hval] at hR

theorem C10_witness :
    (⟨true, some "hi\n".data, none⟩ : ExecutionResult).success = true ∧
    (⟨true, some "hi\n".data, none⟩ : ExecutionResult).error = none :=
  (C10_success_shape (mkPersistentShell "/sb") "echo hi".data "__M__".data).1
    ("echo hi".data ++ '\n' :: "echo ".data ++ "__M__".data ++ ['\n'])
    (fun cs => runMarkerLoop "__M__".data cs [] [])
    [Chunk.out "hi\n__M__\n".data] ⟨true, some "hi\n".data, none⟩ rfl rfl
